import Mathlib

/-!
Verification of the access-control reconciliation engine and the external
location crawler of this repository.

The `workspace_access/redash.py` module (`RedashPermissionsSupport`) is not
present under `src/`; only its unit tests are. Its definitions below are
therefore modelled from the specification (sections 3, 4, 7 of `spec.md`),
with the repository's unit tests (`tests/unit/workspace_access/test_redash.py`)
taken as the authority wherever they pin concrete behavior. Each such
definition carries a doc comment starting with `Modelled from the spec:`.

`hive_metastore/data_objects.py` is present under `src/` and
`ExternalLocationCrawler._external_locations` is embedded from that source,
including the Python string primitives it relies on (`str.find`,
`str.startswith`, `str.replace`, `os.path.dirname`, `os.path.commonpath`).
Python strings are embedded as lists of characters (`PyStr`).
-/

namespace Ucx

/-- Modelled from the spec: the ordered access-level enum of the missing
`databricks.sdk.service.sql.PermissionLevel` as used by `redash.py`
(view/run/edit/manage tiers, section 3 of the spec). -/
inductive PermissionLevel where
  | canView
  | canRun
  | canEdit
  | canManage
  deriving DecidableEq

/-- String value of a permission level, as serialized into the raw payload. -/
def PermissionLevel.value : PermissionLevel → String
  | .canView => "CAN_VIEW"
  | .canRun => "CAN_RUN"
  | .canEdit => "CAN_EDIT"
  | .canManage => "CAN_MANAGE"

/-- Modelled from the spec: `AccessControlEntry` (spec section 3), the missing
`sql.AccessControl` record: one principal together with one access level.
Equality is structural (principal and level). -/
structure AccessControl where
  group_name : String
  permission_level : PermissionLevel
  deriving DecidableEq

/-- Modelled from the spec: the singular object category enum of the missing
`sql.ObjectType` (alerts, dashboards and queries are the categories the
redash support crawls). -/
inductive ObjectType where
  | alert
  | dashboard
  | query
  deriving DecidableEq

/-- String value of a singular object category. -/
def ObjectType.value : ObjectType → String
  | .alert => "alert"
  | .dashboard => "dashboard"
  | .query => "query"

/-- Modelled from the spec: the plural object category enum of the missing
`sql.ObjectTypePlural`, used for addressing the permissions API. -/
inductive ObjectTypePlural where
  | alerts
  | dashboards
  | queries
  deriving DecidableEq

/-- String value of a plural object category; this is the
`object_category` recorded on a snapshot. -/
def ObjectTypePlural.value : ObjectTypePlural → String
  | .alerts => "alerts"
  | .dashboards => "dashboards"
  | .queries => "queries"

/-- The plural category corresponding to a singular one. -/
def pluralOf : ObjectType → ObjectTypePlural
  | .alert => .alerts
  | .dashboard => .dashboards
  | .query => .queries

/-- Modelled from the spec: the classified error of the missing
`databricks.sdk` error hierarchy. The spec (section 4.3) requires the
taxonomy to be table-driven over error codes, so an error is its code. -/
structure DbError where
  code : String
  deriving DecidableEq

/-- The classified permission-denied error raised by the backend
(`databricks.sdk.errors.PermissionDenied`). -/
def permissionDeniedError : DbError := ⟨"PERMISSION_DENIED"⟩

/-- The classified transient server error raised by the backend
(`databricks.sdk.errors.InternalError`). -/
def internalServerError : DbError := ⟨"INTERNAL_SERVER_ERROR"⟩

/-- The classified not-found error raised by the backend
(`databricks.sdk.errors.NotFound`). -/
def notFoundError : DbError := ⟨"NOT_FOUND"⟩

/-- Modelled from the spec: the error codes classified as "not found" on the
read path (spec sections 4.1 and 7); the missing `_safe_get_dbsql_permissions`
swallows exactly these. -/
def notFoundCodes : List String := ["NOT_FOUND", "RESOURCE_DOES_NOT_EXIST"]

/-- Modelled from the spec: the table of non-retriable error codes for the
write path (spec section 4.3 requires a table-driven code classification;
the unit tests pin PERMISSION_DENIED as non-retriable and
INTERNAL_SERVER_ERROR as retriable). -/
def nonRetriableCodes : List String :=
  ["BAD_REQUEST", "UNAUTHORIZED", "PERMISSION_DENIED", "NOT_FOUND"]

/-- Modelled from the spec: the full get-response of the missing
`sql.GetResponse`: category, object id and the access-control list. -/
structure GetResponse where
  object_type : ObjectType
  object_id : String
  access_control_list : List AccessControl
  deriving DecidableEq

/-- Modelled from the spec: `PermissionSnapshot` (spec section 3), the
missing `Permissions` record: object id, object category and the serialized
raw ACL payload. The payload is embedded as a flat row of text cells
(schema version, category, id, then alternating principal/level cells). -/
structure Permissions where
  object_id : String
  object_type : String
  raw : List String
  deriving DecidableEq

/-- Serialize an access-control list into alternating principal/level text
cells of the raw payload. -/
def serializeAcl : List AccessControl → List String
  | [] => []
  | a :: rest => a.group_name :: a.permission_level.value :: serializeAcl rest

/-- Modelled from the spec: the `(category, object_id, entries)` to text
codec producing the `raw` field of a snapshot (spec sections 3 and 9:
an explicit codec pair with a documented schema version). -/
def serializeResponse (g : GetResponse) : List String :=
  "1" :: g.object_type.value :: g.object_id :: serializeAcl g.access_control_list

/-- Decode a permission level from its serialized text cell. -/
def parseLevel (s : String) : Option PermissionLevel :=
  if s = "CAN_VIEW" then some .canView
  else if s = "CAN_RUN" then some .canRun
  else if s = "CAN_EDIT" then some .canEdit
  else if s = "CAN_MANAGE" then some .canManage
  else none

/-- Decode a singular object category from its serialized text cell. -/
def parseObjectType (s : String) : Option ObjectType :=
  if s = "alert" then some .alert
  else if s = "dashboard" then some .dashboard
  else if s = "query" then some .query
  else none

/-- Decode the alternating principal/level cells back into an
access-control list. -/
def deserializeAcl : List String → Option (List AccessControl)
  | [] => some []
  | [_] => none
  | gname :: lvl :: rest =>
    match parseLevel lvl, deserializeAcl rest with
    | some l, some acl => some (AccessControl.mk gname l :: acl)
    | _, _ => none

/-- Modelled from the spec: the text to `(category, object_id, entries)`
decoder, inverse direction of the raw-payload codec. -/
def deserializeResponse : List String → Option GetResponse
  | v :: ot :: oid :: rest =>
    if v = "1" then
      match parseObjectType ot, deserializeAcl rest with
      | some t, some acl => some (GetResponse.mk t oid acl)
      | _, _ => none
    else none
  | _ => none

/-- Modelled from the spec: `RedashPermissionsSupport._safe_get_dbsql_permissions`
(missing from src, pinned by `test_safe_getter_known` and
`test_safe_getter_unknown`): a get call failing with a not-found
classification yields no response; any other failure propagates unchanged.
The backend call itself is passed in as its result. -/
def safe_get_dbsql_permissions (resp : Except DbError GetResponse) :
    Except DbError (Option GetResponse) :=
  match resp with
  | .ok g => .ok (some g)
  | .error e => if e.code ∈ notFoundCodes then .ok none else .error e

/-- Modelled from the spec: `RedashPermissionsSupport._safe_set_permissions`
(missing from src, pinned by `test_safe_set_permissions_when_error_non_retriable`
and `test_safe_set_permissions_when_error_retriable`): a set call failing
with a code in the non-retriable table yields no response (the error is
swallowed); any other failure propagates unchanged. -/
def safe_set_permissions (resp : Except DbError GetResponse) :
    Except DbError (Option GetResponse) :=
  match resp with
  | .ok g => .ok (some g)
  | .error e => if e.code ∈ nonRetriableCodes then .ok none else .error e

/-- Modelled from the spec: `RedashPermissionsSupport._crawler_task` (missing
from src, pinned by `test_crawlers`, `test_empty_permissions` and the safe
getter tests): read one object's ACL through the safe getter; no response
means no snapshot; a successful response becomes a snapshot whose raw field
is the serialized get-response. -/
def crawler_task (object_id : String) (object_type : ObjectTypePlural)
    (resp : Except DbError GetResponse) : Except DbError (Option Permissions) :=
  match safe_get_dbsql_permissions resp with
  | .error e => .error e
  | .ok none => .ok none
  | .ok (some g) =>
    .ok (some (Permissions.mk object_id object_type.value (serializeResponse g)))

/-- Modelled from the spec: one row of the `MigrationMapping`
(spec section 3): a workspace principal renamed to an account principal. -/
structure MigrationRow where
  workspace_principal : String
  account_principal : String
  deriving DecidableEq

/-- Look a principal up in the migration mapping (first row wins; the spec
keys rows uniquely on the workspace principal). -/
def lookupPrincipal : List MigrationRow → String → Option String
  | [], _ => none
  | r :: rest, p =>
    if r.workspace_principal = p then some r.account_principal
    else lookupPrincipal rest p

/-- Modelled from the spec: the per-entry step of `PrincipalTranslator`
(spec section 4.2): a mapped principal is renamed keeping the level, an
unmapped entry passes through unchanged. -/
def translateEntry (m : List MigrationRow) (e : AccessControl) : AccessControl :=
  match lookupPrincipal m e.group_name with
  | some ap => AccessControl.mk ap e.permission_level
  | none => e

/-- Modelled from the spec: `PrincipalTranslator.translate`
(spec section 4.2): rewrite every entry through the mapping, one output
entry per input entry. -/
def translate (m : List MigrationRow) (entries : List AccessControl) :
    List AccessControl :=
  entries.map (translateEntry m)

/-- Modelled from the spec: the verification subset check of
`RedashPermissionsSupport._applier_task` (spec section 4.3 step 2): the
observed get result satisfies the target when every target entry is present
in the observed entry list; a failed get does not satisfy it. -/
def verificationPasses (target : List AccessControl)
    (observed : Except DbError GetResponse) : Bool :=
  match observed with
  | .ok g => target.all (fun a => decide (a ∈ g.access_control_list))
  | .error _ => false

/-- Outcome of one apply-and-verify task. `attempts` is the index of the
attempt that terminated the loop (so `attempts + 1` set calls were made) and
`elapsed` the modelled wall-clock time consumed by backoff sleeps. The spec
names a `FatalFailure` outcome; the repository's unit tests pin behavior in
which the non-retriable write error is swallowed by the safe setter, so the
modelled applier never produces it. -/
inductive ApplyResult where
  | success (attempts elapsed : Nat)
  | timeoutFailure (attempts elapsed : Nat)
  | fatalFailure (code : String) (attempts elapsed : Nat)
  deriving DecidableEq

/-- Modelled from the spec: the retry loop of
`RedashPermissionsSupport._applier_task` (spec section 4.3 steps 1 to 5,
amended where the unit tests pin different behavior): each attempt performs
the set call through the safe setter (whose classified failures are either
swallowed or treated as a failed attempt, per the tests), then polls the get
call and applies the subset check; on failure it sleeps one backoff interval
of `b + 1` time units and retries, unless the elapsed time already exceeds
`timeout`. `setR n` and `getR n` are the backend's answers to the n-th set
and get calls. `fuel` bounds the recursion structurally; it is initialized
to `timeout + 2`, which the loop can never exhaust because every retry
consumes at least one time unit. -/
def applyGo (target : List AccessControl)
    (setR getR : Nat → Except DbError GetResponse) (timeout b : Nat) :
    Nat → Nat → Nat → ApplyResult
  | attempt, elapsed, 0 => ApplyResult.timeoutFailure attempt elapsed
  | attempt, elapsed, fuel + 1 =>
    let _setOutcome := safe_set_permissions (setR attempt)
    if verificationPasses target (getR attempt) then
      ApplyResult.success attempt elapsed
    else if timeout < elapsed then
      ApplyResult.timeoutFailure attempt elapsed
    else
      applyGo target setR getR timeout b (attempt + 1) (elapsed + (b + 1)) fuel

/-- Modelled from the spec: `RedashPermissionsSupport._applier_task`
(spec section 4.3): run the set-then-verify loop from the first attempt with
no elapsed time. -/
def applier_task (target : List AccessControl)
    (setR getR : Nat → Except DbError GetResponse) (timeout b : Nat) :
    ApplyResult :=
  applyGo target setR getR timeout b 0 0 (timeout + 2)

/-- Whether an apply outcome is a success. -/
def ApplyResult.isSuccess : ApplyResult → Bool
  | .success _ _ => true
  | _ => false

/-- Whether an apply outcome is a timeout failure. -/
def ApplyResult.isTimeout : ApplyResult → Bool
  | .timeoutFailure _ _ => true
  | _ => false

/-- The modelled wall-clock time carried by an apply outcome. -/
def ApplyResult.elapsedOf : ApplyResult → Nat
  | .success _ e => e
  | .timeoutFailure _ e => e
  | .fatalFailure _ _ e => e

/-- The terminating attempt index carried by an apply outcome. -/
def ApplyResult.attemptsOf : ApplyResult → Nat
  | .success a _ => a
  | .timeoutFailure a _ => a
  | .fatalFailure _ a _ => a

/-!
Concrete data for closed instances, mirroring the fixtures of
`tests/unit/workspace_access/test_redash.py`.
-/

/-- Entry (group_1, CAN_RUN), as in `test_applier_task_failed`. -/
def aclGroupOneRun : AccessControl := ⟨"group_1", PermissionLevel.canRun⟩

/-- Entry (group_1, CAN_MANAGE). -/
def aclGroupOneManage : AccessControl := ⟨"group_1", PermissionLevel.canManage⟩

/-- Entry (group_2, CAN_MANAGE). -/
def aclGroupTwoManage : AccessControl := ⟨"group_2", PermissionLevel.canManage⟩

/-- The object id used throughout the unit-test fixtures. -/
def testObjectId : String := "test"

/-- A backend ACL state that contains (group_1, CAN_MANAGE) but never
(group_1, CAN_RUN): targets asking for CAN_RUN can never verify against
it. -/
def staleResponse : GetResponse :=
  ⟨ObjectType.query, "test", [aclGroupOneManage, aclGroupTwoManage]⟩

/-- A successful get response for an alert object. -/
def sampleResponse : GetResponse :=
  ⟨ObjectType.alert, "test", [aclGroupOneManage, aclGroupTwoManage]⟩

/-- A one-row migration mapping whose workspace principal matches none of
the sample entries. -/
def sampleMapping : List MigrationRow := [⟨"group_old", "group_new"⟩]

/-- A duplicated target list: the same entry twice, as conveyed by
`test_applier_task_should_return_true_if_permission_is_up_to_date_with_multiple_permissions`. -/
def dupTarget : List AccessControl := [aclGroupOneManage, aclGroupOneManage]

/-!
Embedding of `src/databricks/labs/ucx/hive_metastore/data_objects.py`.
Python strings are lists of characters; the Python string and `os.path`
primitives the source uses are embedded first.
-/

/-- Python strings as lists of characters. -/
abbrev PyStr := List Char

/-- `str.startswith`: prefix test. -/
def pyStartsWith (s pre : PyStr) : Bool := pre.isPrefixOf s

/-- Helper for `pyFind`: the first index at or after `i` at which `sub`
occurs, scanning left to right. -/
def pyFindAux (sub : PyStr) : PyStr → Nat → Option Nat
  | [], i => if sub.isPrefixOf ([] : PyStr) then some i else none
  | c :: rest, i =>
    if sub.isPrefixOf (c :: rest) then some i else pyFindAux sub rest (i + 1)

/-- `str.find`: index of the first occurrence of `sub` in `s`, `-1` when
absent. -/
def pyFind (s sub : PyStr) : Int :=
  match pyFindAux sub s 0 with
  | some n => (n : Int)
  | none => -1

/-- `sub in s`: substring containment. -/
def pyContains (s sub : PyStr) : Bool := (pyFindAux sub s 0).isSome

/-- Fueled scanner for `str.replace` with a nonempty pattern; every step
consumes at least one character, so fuel equal to the string length is
never exhausted early. -/
def pyReplaceGo (old new : PyStr) : Nat → PyStr → PyStr
  | 0, s => s
  | _ + 1, [] => []
  | fuel + 1, c :: rest =>
    if old.isPrefixOf (c :: rest) then
      new ++ pyReplaceGo old new fuel (rest.drop (old.length - 1))
    else
      c :: pyReplaceGo old new fuel rest

/-- `str.replace`: replace every non-overlapping occurrence of `old` by
`new`, scanning left to right; an empty `old` interleaves `new` around
every character, as in Python. -/
def pyReplace (s old new : PyStr) : PyStr :=
  if old = [] then new ++ s.foldr (fun c r => c :: (new ++ r)) []
  else pyReplaceGo old new s.length s

/-- `str.lower`, character by character. -/
def pyLower (s : PyStr) : PyStr := s.map Char.toLower

/-- Everything up to and including the last slash of `p` (empty when `p`
has no slash); this is `p[:i]` with `i = p.rfind(sep) + 1` inside
`posixpath.dirname`. -/
def upToLastSlash (p : PyStr) : PyStr :=
  ((p.reverse).dropWhile (fun c => c ≠ '/')).reverse

/-- `str.rstrip` with the separator: drop trailing slashes. -/
def rstripSlash (p : PyStr) : PyStr :=
  ((p.reverse).dropWhile (fun c => c = '/')).reverse

/-- `os.path.dirname` (posixpath): the head up to the last separator, with
trailing separators stripped unless the head consists only of separators. -/
def pyDirname (p : PyStr) : PyStr :=
  let head := upToLastSlash p
  if head ≠ [] ∧ ¬ head.all (fun c => c = '/') then rstripSlash head else head

/-- Path components as computed inside `os.path.commonpath`: split on the
separator, dropping empty and current-directory components. -/
def splitComponents (p : PyStr) : List PyStr :=
  (p.splitOn '/').filter (fun c => decide (c ≠ [] ∧ c ≠ ['.']))

/-- Longest common component run of two split paths; for two paths this is
what the min/max comparison loop of `os.path.commonpath` computes. -/
def commonComponents : List PyStr → List PyStr → List PyStr
  | x :: xs, y :: ys => if x = y then x :: commonComponents xs ys else []
  | _, _ => []

/-- `p[:1] == sep`: absolute path test of `os.path.commonpath`. -/
def pyIsAbs (p : PyStr) : Bool :=
  match p with
  | c :: _ => c = '/'
  | [] => false

/-- `os.path.commonpath` for exactly two paths; `none` models the
`ValueError` raised on a mix of absolute and relative paths. -/
def commonpath2 (a b : PyStr) : Option PyStr :=
  if pyIsAbs a = pyIsAbs b then
    some ((if pyIsAbs a then ['/'] else []) ++
      List.intercalate ['/'] (commonComponents (splitComponents a) (splitComponents b)))
  else none

/-- A word character of the storage-properties key pattern (ASCII reading
of a regex word character). -/
def isWordChar (c : Char) : Bool := c.isAlphanum || c = '_'

/-- A Python whitespace character. -/
def pyIsSpace (c : Char) : Bool :=
  c = ' ' || c = '\t' || c = '\n' || c = '\r' || c = '\x0b' || c = '\x0c'

/-- The lookahead of the storage-properties pattern: optional whitespace
followed by a comma or a closing square bracket. -/
def lookaheadOk (rest : PyStr) : Bool :=
  match rest.dropWhile pyIsSpace with
  | c :: _ => c = ',' || c = ']'
  | [] => false

/-- Lazy value scan of the storage-properties pattern: the shortest
newline-free prefix after which the lookahead matches, together with the
unconsumed remainder. -/
def scanValue : PyStr → PyStr → Option (PyStr × PyStr)
  | _, [] => none
  | acc, c :: cs =>
    if lookaheadOk (c :: cs) then some (acc.reverse, c :: cs)
    else if c = '\n' then none
    else scanValue (c :: acc) cs

/-- Fueled scan of `re.findall` for the storage-properties pattern: at each
position try to match a key run, an equals sign and a lazy value; on a
match emit the pair and resume after the value, otherwise advance one
character. -/
def findallGo : Nat → PyStr → List (PyStr × PyStr)
  | 0, _ => []
  | _ + 1, [] => []
  | fuel + 1, c :: cs =>
    let run := (c :: cs).takeWhile isWordChar
    match
      (if run = [] then none
       else
         match (c :: cs).drop run.length with
         | '=' :: rest => (scanValue [] rest).map (fun p => (run, p))
         | _ => none) with
    | some (k, v, rem) => (k, v) :: findallGo fuel rem
    | none => findallGo fuel cs

/-- `re.findall` of the storage-properties pattern over the whole text. -/
def pyFindallKV (s : PyStr) : List (PyStr × PyStr) :=
  findallGo (s.length + 1) s

/-- `dict(matches)` followed by `.get(key, "")`: the value of the last
occurrence of `key`, defaulting to the empty string. -/
def dictGet (kvs : List (PyStr × PyStr)) (key : PyStr) : PyStr :=
  match (kvs.reverse).find? (fun p => decide (p.1 = key)) with
  | some p => p.2
  | none => []

/-- One row fetched from the tables inventory: the location and storage
properties columns (`data_objects.py` lines 94 to 99). -/
structure Row where
  location : Option PyStr
  storage_properties : PyStr
  deriving DecidableEq

/-- A mount point: its name under `dbfs:/mnt` and its resolved source
(consumed by `_external_locations` at lines 34 to 38). -/
structure Mount where
  name : PyStr
  source : PyStr
  deriving DecidableEq

/-- The `ExternalLocation` dataclass of `data_objects.py`. -/
structure ExternalLocation where
  location : PyStr
  deriving DecidableEq

/-- Literal `dbfs:/mnt`. -/
def dbfsMntLit : PyStr := "dbfs:/mnt".toList

/-- Literal `dbfs`. -/
def dbfsLit : PyStr := "dbfs".toList

/-- Literal `jdbc`. -/
def jdbcLit : PyStr := "jdbc".toList

/-- Literal `:/`, the scheme separator searched by the prefix guard. -/
def sepLit : PyStr := ":/".toList

/-- Literal `://`, the replacement restoring the scheme separator. -/
def sepDoubleLit : PyStr := "://".toList

/-- Literal `/`. -/
def slashLit : PyStr := "/".toList

/-- Literal `:`. -/
def colonLit : PyStr := ":".toList

/-- Literal `jdbc:databricks://`. -/
def jdbcDatabricksHead : PyStr := "jdbc:databricks://".toList

/-- Literal `;httpPath=`. -/
def httpPathSep : PyStr := ";httpPath=".toList

/-- Literal `jdbc:mysql://`. -/
def jdbcMysqlHead : PyStr := "jdbc:mysql://".toList

/-- Literal `jdbc:`. -/
def jdbcHead : PyStr := "jdbc:".toList

/-- Storage-properties key `host`. -/
def hostKey : PyStr := "host".toList

/-- Storage-properties key `port`. -/
def portKey : PyStr := "port".toList

/-- Storage-properties key `database`. -/
def databaseKey : PyStr := "database".toList

/-- Storage-properties key `httpPath`. -/
def httpPathKey : PyStr := "httpPath".toList

/-- Storage-properties key `provider`. -/
def providerKey : PyStr := "provider".toList

/-- Literal `databricks`. -/
def databricksLit : PyStr := "databricks".toList

/-- Literal `mysql`. -/
def mysqlLit : PyStr := "mysql".toList

/-- `_prefix_size[0]` of `ExternalLocationCrawler`. -/
def prefixSizeLo : Int := 1

/-- `_prefix_size[1]` of `ExternalLocationCrawler`. -/
def prefixSizeHi : Int := 12

/-- The mount-resolution loop of `_external_locations` (lines 35 to 38):
the first mount whose name prefixes `location[5:]` replaces its name by its
source inside `location[5:]` and stops the loop. -/
def resolveMounts : List Mount → PyStr → PyStr
  | [], l => l
  | m :: rest, l =>
    if pyStartsWith (l.drop 5) m.name then pyReplace (l.drop 5) m.name m.source
    else resolveMounts rest l

/-- The location after mount resolution (lines 34 to 38): resolution only
applies to locations starting with `dbfs:/mnt`. -/
def resolveLocation (mounts : List Mount) (l : PyStr) : PyStr :=
  if pyStartsWith l dbfsMntLit then resolveMounts mounts l else l

/-- The deduplication while-loop plus append of `_external_locations`
(lines 44 to 58): the first collected entry whose common path with the
candidate directory has more than `min_slash = 2` slashes is replaced in
place by that common path; otherwise the candidate directory is appended at
the end. `none` models the `ValueError` that `os.path.commonpath` raises on
a mix of absolute and relative paths. -/
def mergeLoc : List ExternalLocation → PyStr → Option (List ExternalLocation)
  | [], location => some [ExternalLocation.mk (pyDirname location ++ slashLit)]
  | x :: rest, location =>
    match commonpath2 x.location (pyDirname location ++ slashLit) with
    | none => none
    | some cp =>
      let common := pyReplace cp sepLit sepDoubleLit ++ slashLit
      if 2 < common.count '/' then some (ExternalLocation.mk common :: rest)
      else (mergeLoc rest location).map (fun r => x :: r)

/-- The jdbc location construction of `_external_locations` (lines 59 to
90): parse the storage properties, pick host, port, database, httpPath and
provider, and format by provider family. -/
def jdbcLocation (location : PyStr) (storage_properties : PyStr) : PyStr :=
  let d := pyFindallKV storage_properties
  let host := dictGet d hostKey
  let port := dictGet d portKey
  let database := dictGet d databaseKey
  let httppath := dictGet d httpPathKey
  let provider := dictGet d providerKey
  if pyContains (pyLower location) databricksLit then
    jdbcDatabricksHead ++ host ++ httpPathSep ++ httppath
  else if pyContains (pyLower location) mysqlLit then
    jdbcMysqlHead ++ host ++ colonLit ++ port ++ slashLit ++ database
  else if provider ≠ [] then
    jdbcHead ++ pyLower provider ++ sepDoubleLit ++ host ++ colonLit ++ port ++
      slashLit ++ database
  else
    pyLower location ++ slashLit ++ host ++ colonLit ++ port ++ slashLit ++ database

/-- One table iteration of `_external_locations` (lines 31 to 90): skip
null or empty locations, resolve mounts, merge non-jdbc locations through
the scheme-prefix guard, and append jdbc locations. -/
def tableStep (mounts : List Mount) (acc : List ExternalLocation) (t : Row) :
    Option (List ExternalLocation) :=
  match t.location with
  | none => some acc
  | some loc0 =>
    if 0 < loc0.length then
      let location := resolveLocation mounts loc0
      let step1 :=
        if pyStartsWith location dbfsLit = false ∧
            prefixSizeLo < pyFind location sepLit ∧
            pyFind location sepLit < prefixSizeHi ∧
            pyStartsWith location jdbcLit = false then
          mergeLoc acc location
        else some acc
      match step1 with
      | none => none
      | some acc2 =>
        some (if pyStartsWith location jdbcLit then
                acc2 ++ [ExternalLocation.mk (jdbcLocation location t.storage_properties)]
              else acc2)
    else some acc

/-- `ExternalLocationCrawler._external_locations` (lines 28 to 92): fold
the table rows, starting from an empty collection. -/
def external_locations (tables : List Row) (mounts : List Mount) :
    Option (List ExternalLocation) :=
  tables.foldlM (tableStep mounts) []

/-- Concrete table location `s3://bucket/a/b.csv`. -/
def s3TableLoc : PyStr := "s3://bucket/a/b.csv".toList

/-- Its directory with the trailing separator appended. -/
def s3DirSlash : PyStr := "s3://bucket/a/".toList

/-- A deeper location sharing the `s3://bucket/a` root. -/
def s3TableLocDeep : PyStr := "s3://bucket/a/b/c.csv".toList

/-- The common path of `s3://bucket/a/` and `s3://bucket/a/b/` as
`os.path.commonpath` returns it, before the separator restoration. -/
def s3CommonRaw : PyStr := "s3:/bucket/a".toList

/-- A dbfs-rooted location. -/
def dbfsLoc : PyStr := "dbfs:/tmp/x".toList

/-- A table row holding the s3 location. -/
def rowS3 : Row := ⟨some s3TableLoc, []⟩

/-- A table row holding the dbfs location. -/
def rowDbfs : Row := ⟨some dbfsLoc, []⟩

/-!
Helper lemmas shared by the claim theorems.
-/

/-- The verification predicate on a successful get response is exactly the
subset check of the target entries against the observed entry list. -/
theorem verificationPasses_ok (target : List AccessControl) (g : GetResponse) :
    verificationPasses target (Except.ok g) = true ↔
      ∀ x ∈ target, x ∈ g.access_control_list := by
  simp [verificationPasses, List.all_eq_true]

/-- When verification never passes, the apply loop ends in a timeout whose
elapsed time lies within one backoff interval past the timeout, provided
the fuel covers the remaining time. -/
theorem applyGo_never_pass (target : List AccessControl)
    (setR getR : Nat → Except DbError GetResponse) (timeout b : Nat)
    (h : ∀ n, verificationPasses target (getR n) = false) :
    ∀ fuel attempt elapsed, elapsed ≤ timeout + (b + 1) →
      timeout < elapsed + fuel * (b + 1) →
      ∃ a e, applyGo target setR getR timeout b attempt elapsed fuel =
          ApplyResult.timeoutFailure a e ∧ timeout < e ∧ e ≤ timeout + (b + 1) ∧
          attempt ≤ a ∧ (elapsed ≤ timeout → attempt + 1 ≤ a) := by
  intro fuel
  induction fuel with
  | zero =>
    intro attempt elapsed h1 h2
    exact ⟨attempt, elapsed, rfl, by omega, h1, Nat.le_refl attempt, by omega⟩
  | succ fuel ih =>
    intro attempt elapsed h1 h2
    rw [applyGo]
    simp only [h attempt, Bool.false_eq_true, if_false]
    by_cases hc : timeout < elapsed
    · rw [if_pos hc]
      exact ⟨attempt, elapsed, rfl, hc, h1, Nat.le_refl attempt, by omega⟩
    · rw [if_neg hc]
      rw [Nat.succ_mul] at h2
      obtain ⟨a, e, heq, hb1, hb2, hb3, _⟩ :=
        ih (attempt + 1) (elapsed + (b + 1)) (by omega) (by omega)
      exact ⟨a, e, heq, hb1, hb2, by omega, fun _ => by omega⟩

/-- When verification never passes, the apply task ends in a timeout whose
elapsed time lies within one backoff interval past the timeout. -/
theorem applier_never_pass (target : List AccessControl)
    (setR getR : Nat → Except DbError GetResponse) (timeout b : Nat)
    (h : ∀ n, verificationPasses target (getR n) = false) :
    ∃ a e, applier_task target setR getR timeout b =
        ApplyResult.timeoutFailure a e ∧ timeout < e ∧ e ≤ timeout + (b + 1) ∧
        1 ≤ a := by
  have hm : (timeout + 2) * 1 ≤ (timeout + 2) * (b + 1) :=
    Nat.mul_le_mul_left (timeout + 2) (by omega)
  rw [Nat.mul_one] at hm
  obtain ⟨a, e, heq, h1, h2, _, h4⟩ :=
    applyGo_never_pass target setR getR timeout b h (timeout + 2) 0 0
      (by omega) (by omega)
  exact ⟨a, e, heq, h1, h2, h4 (by omega)⟩

/-- When the first verification passes, the apply task succeeds at the
first attempt with no elapsed time. -/
theorem applier_first_pass (target : List AccessControl)
    (setR getR : Nat → Except DbError GetResponse) (timeout b : Nat)
    (h : verificationPasses target (getR 0) = true) :
    applier_task target setR getR timeout b = ApplyResult.success 0 0 := by
  show applyGo target setR getR timeout b 0 0 (timeout + 1 + 1) = _
  rw [applyGo]
  simp [h]

/-!
Claim theorems.
-/

/-- C1: for every list of target entries and every observed ACL returned by
the get operation, the apply-and-verify task reports success exactly when
every target entry is present in the observed entry list — extra unrelated
observed entries and their order are irrelevant, since the right-hand side
only quantifies over membership. -/
theorem applier_success_iff_target_subset (target : List AccessControl)
    (setR : Nat → Except DbError GetResponse) (g : GetResponse)
    (timeout b : Nat) :
    (applier_task target setR (fun _ => Except.ok g) timeout b).isSuccess = true ↔
      ∀ x ∈ target, x ∈ g.access_control_list := by
  constructor
  · intro hsucc
    by_contra hns
    have hf : ∀ _ : Nat, verificationPasses target (Except.ok g) = false := by
      intro n
      cases hb : verificationPasses target (Except.ok g) with
      | false => rfl
      | true => exact absurd ((verificationPasses_ok target g).mp hb) hns
    obtain ⟨a, e, heq, _, _, _⟩ :=
      applier_never_pass target setR (fun _ => Except.ok g) timeout b hf
    rw [heq] at hsucc
    simp [ApplyResult.isSuccess] at hsucc
  · intro hsub
    rw [applier_first_pass target setR (fun _ => Except.ok g) timeout b
      ((verificationPasses_ok target g).mpr hsub)]
    rfl

/-- C3: if the verification subset check never succeeds, the apply-and-verify
task terminates with a timeout failure, and its elapsed time is at least the
verify timeout and at most the verify timeout plus one backoff interval
(the backoff interval is `b + 1` time units). -/
theorem applier_timeout_determinism (target : List AccessControl)
    (setR getR : Nat → Except DbError GetResponse) (timeout b : Nat)
    (h : ∀ n, verificationPasses target (getR n) = false) :
    (applier_task target setR getR timeout b).isTimeout = true ∧
      timeout ≤ (applier_task target setR getR timeout b).elapsedOf ∧
      (applier_task target setR getR timeout b).elapsedOf ≤ timeout + (b + 1) := by
  obtain ⟨a, e, heq, h1, h2, _⟩ := applier_never_pass target setR getR timeout b h
  rw [heq]
  simp only [ApplyResult.isTimeout, ApplyResult.elapsedOf]
  exact ⟨trivial, by omega, h2⟩

/-- Witness for C3: a target asking CAN_RUN for group_1 against a backend
that only ever reports CAN_MANAGE times out between 5 and 7 time units with
a backoff of 2. -/
theorem applier_timeout_determinism_witness :
    (applier_task [aclGroupOneRun] (fun _ => Except.ok staleResponse)
        (fun _ => Except.ok staleResponse) 5 1).isTimeout = true ∧
      5 ≤ (applier_task [aclGroupOneRun] (fun _ => Except.ok staleResponse)
        (fun _ => Except.ok staleResponse) 5 1).elapsedOf ∧
      (applier_task [aclGroupOneRun] (fun _ => Except.ok staleResponse)
        (fun _ => Except.ok staleResponse) 5 1).elapsedOf ≤ 5 + (1 + 1) :=
  applier_timeout_determinism [aclGroupOneRun] (fun _ => Except.ok staleResponse)
    (fun _ => Except.ok staleResponse) 5 1 (fun _ => rfl)

/-- C2 counterexample: with every set call failing with the non-retriable
PERMISSION_DENIED classification and verification never passing, the apply
task does not fail immediately with a fatal failure: it runs five attempts
(four retries) and ends in a timeout failure, exactly as
`test_applier_task_when_set_error_non_retriable` expects a TimeoutError. -/
theorem applier_no_fatal_shortcircuit_cex :
    applier_task [aclGroupOneRun] (fun _ => Except.error permissionDeniedError)
        (fun _ => Except.ok staleResponse) 3 0 = ApplyResult.timeoutFailure 4 4 ∧
      applier_task [aclGroupOneRun] (fun _ => Except.error permissionDeniedError)
        (fun _ => Except.ok staleResponse) 3 0 ≠
        ApplyResult.fatalFailure permissionDeniedError.code 0 0 := by
  constructor
  · rfl
  · decide

/-- C2 as amended: a non-retriable classified set error is swallowed by the
safe set wrapper (no fatal short-circuit); the apply task proceeds to the
verification poll loop, and when verification never succeeds it ends in a
timeout failure within one backoff interval past the verify timeout. -/
theorem nonretriable_set_error_swallowed (e : DbError)
    (he : e.code ∈ nonRetriableCodes) (target : List AccessControl)
    (getR : Nat → Except DbError GetResponse) (timeout b : Nat)
    (hv : ∀ n, verificationPasses target (getR n) = false) :
    safe_set_permissions (Except.error e) = Except.ok none ∧
      (applier_task target (fun _ => Except.error e) getR timeout b).isTimeout = true ∧
      timeout ≤ (applier_task target (fun _ => Except.error e) getR timeout b).elapsedOf ∧
      (applier_task target (fun _ => Except.error e) getR timeout b).elapsedOf ≤
        timeout + (b + 1) := by
  obtain ⟨a, el, heq, h1, h2, _⟩ :=
    applier_never_pass target (fun _ => Except.error e) getR timeout b hv
  rw [heq]
  simp only [ApplyResult.isTimeout, ApplyResult.elapsedOf]
  exact ⟨by simp [safe_set_permissions, he], trivial, by omega, h2⟩

/-- Witness for the amended C2: the PERMISSION_DENIED code is in the
non-retriable table, the set error is swallowed, and the task times out. -/
theorem nonretriable_set_error_swallowed_witness :
    permissionDeniedError.code ∈ nonRetriableCodes ∧
      safe_set_permissions (Except.error permissionDeniedError) = Except.ok none ∧
      (applier_task [aclGroupOneRun] (fun _ => Except.error permissionDeniedError)
        (fun _ => Except.ok staleResponse) 3 0).isTimeout = true :=
  ⟨by decide,
    (nonretriable_set_error_swallowed permissionDeniedError (by decide)
      [aclGroupOneRun] (fun _ => Except.ok staleResponse) 3 0 (fun _ => rfl)).1,
    (nonretriable_set_error_swallowed permissionDeniedError (by decide)
      [aclGroupOneRun] (fun _ => Except.ok staleResponse) 3 0 (fun _ => rfl)).2.1⟩

/-- C9: the safe set wrapper swallows a non-retriable PERMISSION_DENIED
error (returns no response) and propagates a retriable
INTERNAL_SERVER_ERROR unchanged; consequently an apply task whose set call
is permanently denied proceeds into the verification poll loop and, when
verification never succeeds, ends in a timeout failure rather than an
immediate fatal result. -/
theorem safe_set_classification_behavior :
    safe_set_permissions (Except.error permissionDeniedError) = Except.ok none ∧
      safe_set_permissions (Except.error internalServerError) =
        Except.error internalServerError ∧
      ∀ (target : List AccessControl) (getR : Nat → Except DbError GetResponse)
        (timeout b : Nat), (∀ n, verificationPasses target (getR n) = false) →
        (applier_task target (fun _ => Except.error permissionDeniedError) getR
            timeout b).isTimeout = true ∧
          1 ≤ (applier_task target (fun _ => Except.error permissionDeniedError)
            getR timeout b).attemptsOf := by
  refine ⟨rfl, rfl, ?_⟩
  intro target getR timeout b hv
  obtain ⟨a, el, heq, h1, h2, h3⟩ := applier_never_pass target
    (fun _ => Except.error permissionDeniedError) getR timeout b hv
  rw [heq]
  simp only [ApplyResult.isTimeout, ApplyResult.attemptsOf]
  exact ⟨trivial, h3⟩

/-- Witness for C9: applied to the concrete never-matching backend of
`test_applier_task_when_set_error_non_retriable`. -/
theorem safe_set_classification_behavior_witness :
    (applier_task [aclGroupOneRun] (fun _ => Except.error permissionDeniedError)
        (fun _ => Except.ok staleResponse) 1 0).isTimeout = true ∧
      1 ≤ (applier_task [aclGroupOneRun] (fun _ => Except.error permissionDeniedError)
        (fun _ => Except.ok staleResponse) 1 0).attemptsOf :=
  safe_set_classification_behavior.2.2 [aclGroupOneRun]
    (fun _ => Except.ok staleResponse) 1 0 (fun _ => rfl)

/-- C4: an entry whose principal has no row in the migration mapping is
returned unchanged by the translate operation, at the same position, with
identical principal and level. -/
theorem translate_passthrough (m : List MigrationRow)
    (entries : List AccessControl) (i : Nat) (e : AccessControl)
    (hi : entries[i]? = some e)
    (hm : lookupPrincipal m e.group_name = none) :
    (translate m entries)[i]? = some e := by
  simp [translate, List.getElem?_map, hi, translateEntry, hm]

/-- Witness for C4: the sample mapping maps `group_old` only, so the entry
for `group_1` passes through unchanged. -/
theorem translate_passthrough_witness :
    ([aclGroupOneRun][0]? = some aclGroupOneRun) ∧
      lookupPrincipal sampleMapping aclGroupOneRun.group_name = none ∧
      (translate sampleMapping [aclGroupOneRun])[0]? = some aclGroupOneRun :=
  ⟨by decide, by decide,
    translate_passthrough sampleMapping [aclGroupOneRun] 0 aclGroupOneRun
      (by decide) (by decide)⟩

/-- C5: a crawl task whose per-object ACL read fails with a NotFound
classification yields no snapshot and raises no error: the object is
silently skipped, both at the safe getter and at the task level. -/
theorem crawler_skips_not_found (oid : String) (ot : ObjectTypePlural)
    (e : DbError) (he : e.code ∈ notFoundCodes) :
    crawler_task oid ot (Except.error e) = Except.ok none ∧
      safe_get_dbsql_permissions (Except.error e) = Except.ok none := by
  have h1 : safe_get_dbsql_permissions (Except.error e) = Except.ok none := by
    simp [safe_get_dbsql_permissions, he]
  exact ⟨by simp [crawler_task, h1], h1⟩

/-- Witness for C5: the NotFound error code on an alerts read. -/
theorem crawler_skips_not_found_witness :
    notFoundError.code ∈ notFoundCodes ∧
      crawler_task testObjectId ObjectTypePlural.alerts
        (Except.error notFoundError) = Except.ok none :=
  ⟨by decide,
    (crawler_skips_not_found testObjectId ObjectTypePlural.alerts notFoundError
      (by decide)).1⟩

/-- C6: a crawl task whose per-object ACL read fails with any
classification other than NotFound propagates exactly that error to its
caller: nothing is swallowed and nothing is retried at the read layer. -/
theorem crawler_propagates_other_errors (oid : String) (ot : ObjectTypePlural)
    (e : DbError) (he : e.code ∉ notFoundCodes) :
    crawler_task oid ot (Except.error e) = Except.error e ∧
      safe_get_dbsql_permissions (Except.error e) = Except.error e := by
  have h1 : safe_get_dbsql_permissions (Except.error e) = Except.error e := by
    simp [safe_get_dbsql_permissions, he]
  exact ⟨by simp [crawler_task, h1], h1⟩

/-- Witness for C6: an internal server error on an alerts read propagates
unchanged, as in `test_safe_getter_unknown`. -/
theorem crawler_propagates_other_errors_witness :
    internalServerError.code ∉ notFoundCodes ∧
      crawler_task testObjectId ObjectTypePlural.alerts
        (Except.error internalServerError) = Except.error internalServerError :=
  ⟨by decide,
    (crawler_propagates_other_errors testObjectId ObjectTypePlural.alerts
      internalServerError (by decide)).1⟩

/-- The level codec round-trips. -/
theorem parseLevel_value (l : PermissionLevel) :
    parseLevel l.value = some l := by
  cases l <;> rfl

/-- The category codec round-trips. -/
theorem parseObjectType_value (t : ObjectType) :
    parseObjectType t.value = some t := by
  cases t <;> rfl

/-- The entry-list codec round-trips. -/
theorem deserializeAcl_serializeAcl (l : List AccessControl) :
    deserializeAcl (serializeAcl l) = some l := by
  induction l with
  | nil => rfl
  | cons a rest ih =>
    cases hs : serializeAcl rest with
    | nil => simp [serializeAcl, deserializeAcl, parseLevel_value, hs ▸ ih, hs]
    | cons x xs => simp [serializeAcl, deserializeAcl, parseLevel_value, hs ▸ ih, hs]

/-- The full raw-payload codec round-trips on every get response. -/
theorem deserializeResponse_serializeResponse (g : GetResponse) :
    deserializeResponse (serializeResponse g) = some g := by
  cases g with
  | mk t oid acl =>
    simp [serializeResponse, deserializeResponse, parseObjectType_value,
      deserializeAcl_serializeAcl]

/-- C7: the translate operation preserves duplicates — the output has one
entry per source entry, positionally the translation of that entry, with no
deduplication — and the apply-and-verify step accepts any duplicated target
list, reporting success at the first attempt whenever the (possibly
duplicated) target entries are all present in the observed set. -/
theorem translate_keeps_duplicates (m : List MigrationRow)
    (entries : List AccessControl) :
    (translate m entries).length = entries.length ∧
      (∀ i : Nat, (translate m entries)[i]? = (entries[i]?).map (translateEntry m)) ∧
      ∀ (target : List AccessControl) (g : GetResponse)
        (setR : Nat → Except DbError GetResponse) (timeout b : Nat),
        (∀ x ∈ target, x ∈ g.access_control_list) →
        applier_task target setR (fun _ => Except.ok g) timeout b =
          ApplyResult.success 0 0 := by
  refine ⟨by simp [translate], fun i => by simp [translate], ?_⟩
  intro target g setR timeout b hsub
  exact applier_first_pass target setR (fun _ => Except.ok g) timeout b
    ((verificationPasses_ok target g).mpr hsub)

/-- Witness for C7: the duplicated target `[aclGroupOneManage,
aclGroupOneManage]` keeps both copies under translation and verifies
successfully against an observed set that contains the entry once plus an
unrelated entry. -/
theorem translate_keeps_duplicates_witness :
    (translate sampleMapping dupTarget).length = dupTarget.length ∧
      (translate sampleMapping dupTarget)[1]? =
        (dupTarget[1]?).map (translateEntry sampleMapping) ∧
      applier_task dupTarget (fun _ => Except.ok staleResponse)
        (fun _ => Except.ok staleResponse) 5 0 = ApplyResult.success 0 0 :=
  ⟨(translate_keeps_duplicates sampleMapping dupTarget).1,
    (translate_keeps_duplicates sampleMapping dupTarget).2.1 1,
    (translate_keeps_duplicates sampleMapping dupTarget).2.2 dupTarget
      staleResponse (fun _ => Except.ok staleResponse) 5 0 (by decide)⟩

/-- C8: a snapshot produced by a crawl task from a successful get response
over a category and object id round-trips: deserializing its raw field
yields exactly the response's entry list, and the object id and category
recorded alongside the raw field agree with the deserialized content. -/
theorem snapshot_raw_roundtrip (oid : String) (ot : ObjectTypePlural)
    (g : GetResponse) (p : Permissions)
    (hid : g.object_id = oid) (hot : pluralOf g.object_type = ot)
    (hc : crawler_task oid ot (Except.ok g) = Except.ok (some p)) :
    deserializeResponse p.raw = some g ∧ p.object_id = g.object_id ∧
      p.object_type = (pluralOf g.object_type).value := by
  have hp : Permissions.mk oid ot.value (serializeResponse g) = p := by
    have := hc
    simp only [crawler_task, safe_get_dbsql_permissions] at this
    exact Option.some.inj (Except.ok.inj this)
  subst hp
  exact ⟨deserializeResponse_serializeResponse g, hid.symm, by rw [hot]⟩

/-- Witness for C8: the alert fixture of `test_crawlers` round-trips. -/
theorem snapshot_raw_roundtrip_witness :
    sampleResponse.object_id = testObjectId ∧
      pluralOf sampleResponse.object_type = ObjectTypePlural.alerts ∧
      crawler_task testObjectId ObjectTypePlural.alerts (Except.ok sampleResponse) =
        Except.ok (some (Permissions.mk testObjectId
          ObjectTypePlural.alerts.value (serializeResponse sampleResponse))) ∧
      deserializeResponse (Permissions.mk testObjectId
          ObjectTypePlural.alerts.value (serializeResponse sampleResponse)).raw =
        some sampleResponse :=
  ⟨rfl, rfl, rfl,
    (snapshot_raw_roundtrip testObjectId ObjectTypePlural.alerts sampleResponse
      (Permissions.mk testObjectId ObjectTypePlural.alerts.value
        (serializeResponse sampleResponse)) rfl rfl rfl).1⟩

/-- The separator literal is the singleton slash character. -/
theorem slashLit_eq : slashLit = ['/'] := rfl

/-- Appending the separator literal makes the last character a slash. -/
theorem endsSlash_append (l : PyStr) : (l ++ slashLit).getLast? = some '/' := by
  rw [slashLit_eq]
  exact List.getLast?_concat l

/-- Every entry stored by the merge step ends with a slash, provided every
previously collected entry does. -/
theorem mergeLoc_endsSlash (location : PyStr) :
    ∀ (acc res : List ExternalLocation),
      (∀ x ∈ acc, x.location.getLast? = some '/') →
      mergeLoc acc location = some res →
      ∀ x ∈ res, x.location.getLast? = some '/' := by
  intro acc
  induction acc with
  | nil =>
    intro res hacc hm x hx
    simp only [mergeLoc, Option.some.injEq] at hm
    subst hm
    simp only [List.mem_singleton] at hx
    subst hx
    exact endsSlash_append _
  | cons hd tl ih =>
    intro res hacc hm x hx
    rw [mergeLoc] at hm
    cases hcp : commonpath2 hd.location (pyDirname location ++ slashLit) with
    | none => rw [hcp] at hm; cases hm
    | some cp =>
      rw [hcp] at hm
      simp only at hm
      by_cases hcnt : 2 < (pyReplace cp sepLit sepDoubleLit ++ slashLit).count '/'
      · rw [if_pos hcnt] at hm
        obtain rfl := Option.some.inj hm
        rcases List.mem_cons.mp hx with hx1 | hx2
        · subst hx1
          exact endsSlash_append _
        · exact hacc x (List.mem_cons_of_mem hd hx2)
      · rw [if_neg hcnt] at hm
        cases hmt : mergeLoc tl location with
        | none => rw [hmt] at hm; cases hm
        | some r =>
          rw [hmt] at hm
          simp only [Option.map_some', Option.some.injEq] at hm
          subst hm
          rcases List.mem_cons.mp hx with hx1 | hx2
          · subst hx1
            exact hacc x (List.mem_cons_self x tl)
          · exact ih r (fun y hy => hacc y (List.mem_cons_of_mem hd hy)) hmt x hx2

/-- One table step preserves the slash-ending invariant when the resolved
location is not a jdbc one. -/
theorem tableStep_endsSlash (mounts : List Mount) (t : Row)
    (acc res : List ExternalLocation)
    (hjdbc : ∀ l, t.location = some l →
      pyStartsWith (resolveLocation mounts l) jdbcLit = false)
    (hacc : ∀ x ∈ acc, x.location.getLast? = some '/')
    (hstep : tableStep mounts acc t = some res) :
    ∀ x ∈ res, x.location.getLast? = some '/' := by
  cases hl : t.location with
  | none =>
    rw [tableStep, hl] at hstep
    obtain rfl := Option.some.inj hstep
    exact hacc
  | some l =>
    have hj := hjdbc l hl
    simp only [tableStep, hl] at hstep
    by_cases hlen : 0 < l.length
    · rw [if_pos hlen] at hstep
      by_cases hg : pyStartsWith (resolveLocation mounts l) dbfsLit = false ∧
          prefixSizeLo < pyFind (resolveLocation mounts l) sepLit ∧
          pyFind (resolveLocation mounts l) sepLit < prefixSizeHi ∧
          pyStartsWith (resolveLocation mounts l) jdbcLit = false
      · rw [if_pos hg] at hstep
        cases hme : mergeLoc acc (resolveLocation mounts l) with
        | none => rw [hme] at hstep; cases hstep
        | some acc2 =>
          rw [hme] at hstep
          simp only [hj, Bool.false_eq_true, if_false, Option.some.injEq] at hstep
          subst hstep
          exact mergeLoc_endsSlash (resolveLocation mounts l) acc acc2 hacc hme
      · rw [if_neg hg] at hstep
        simp only [hj, Bool.false_eq_true, if_false, Option.some.injEq] at hstep
        subst hstep
        exact hacc
    · rw [if_neg hlen] at hstep
      obtain rfl := Option.some.inj hstep
      exact hacc

/-- The fold preserves the slash-ending invariant over any table list whose
resolved locations are never jdbc ones. -/
theorem foldl_endsSlash (mounts : List Mount) :
    ∀ (tables : List Row) (acc res : List ExternalLocation),
      (∀ t ∈ tables, ∀ l, t.location = some l →
        pyStartsWith (resolveLocation mounts l) jdbcLit = false) →
      (∀ x ∈ acc, x.location.getLast? = some '/') →
      List.foldlM (tableStep mounts) acc tables = some res →
      ∀ x ∈ res, x.location.getLast? = some '/' := by
  intro tables
  induction tables with
  | nil =>
    intro acc res _ hacc hf
    obtain rfl := Option.some.inj hf
    exact hacc
  | cons t ts ih =>
    intro acc res hj hacc hf
    rw [List.foldlM_cons] at hf
    cases hstep : tableStep mounts acc t with
    | none => rw [hstep] at hf; cases hf
    | some acc2 =>
      rw [hstep] at hf
      simp only [Option.bind_eq_bind, Option.some_bind] at hf
      exact ih acc2 res (fun t2 ht2 => hj t2 (List.mem_cons_of_mem t ht2))
        (tableStep_endsSlash mounts t acc acc2
          (fun l hl => hj t (List.mem_cons_self t ts) l hl) hacc hstep) hf

/-- C10: three invariants of `ExternalLocationCrawler._external_locations`.
First, when every table location (after mount resolution) is a non-jdbc
one, every collected external location ends with a trailing slash. Second,
a table whose resolved location starts with `dbfs` or `jdbc`, or whose `:/`
separator index is not strictly between `_prefix_size[0] = 1` and
`_prefix_size[1] = 12`, contributes nothing through the non-jdbc branch:
the collection is unchanged except for the jdbc-branch append. Third, when
the candidate directory shares with an already collected entry a common
path whose slash-restored form has more than two slashes, that entry is
replaced in place by the common path and nothing is appended. -/
theorem external_locations_invariants :
    (∀ (tables : List Row) (mounts : List Mount) (res : List ExternalLocation),
      (∀ t ∈ tables, ∀ l, t.location = some l →
        pyStartsWith (resolveLocation mounts l) jdbcLit = false) →
      external_locations tables mounts = some res →
      ∀ x ∈ res, x.location.getLast? = some '/') ∧
    (∀ (mounts : List Mount) (acc : List ExternalLocation) (t : Row) (l : PyStr),
      t.location = some l → 0 < l.length →
      (pyStartsWith (resolveLocation mounts l) dbfsLit = true ∨
        pyStartsWith (resolveLocation mounts l) jdbcLit = true ∨
        ¬(prefixSizeLo < pyFind (resolveLocation mounts l) sepLit ∧
          pyFind (resolveLocation mounts l) sepLit < prefixSizeHi)) →
      tableStep mounts acc t =
        some (if pyStartsWith (resolveLocation mounts l) jdbcLit then
          acc ++ [ExternalLocation.mk
            (jdbcLocation (resolveLocation mounts l) t.storage_properties)]
        else acc)) ∧
    (∀ (x : ExternalLocation) (rest : List ExternalLocation) (location cp : PyStr),
      commonpath2 x.location (pyDirname location ++ slashLit) = some cp →
      2 < (pyReplace cp sepLit sepDoubleLit ++ slashLit).count '/' →
      mergeLoc (x :: rest) location =
        some (ExternalLocation.mk (pyReplace cp sepLit sepDoubleLit ++ slashLit)
          :: rest)) := by
  refine ⟨?_, ?_, ?_⟩
  · intro tables mounts res hj hf
    exact foldl_endsSlash mounts tables [] res hj (by intro x hx; cases hx) hf
  · intro mounts acc t l hl hlen hdisj
    simp only [tableStep, hl]
    rw [if_pos hlen]
    have hng : ¬(pyStartsWith (resolveLocation mounts l) dbfsLit = false ∧
        prefixSizeLo < pyFind (resolveLocation mounts l) sepLit ∧
        pyFind (resolveLocation mounts l) sepLit < prefixSizeHi ∧
        pyStartsWith (resolveLocation mounts l) jdbcLit = false) := by
      rcases hdisj with h1 | h1 | h1
      · intro hg; rw [h1] at hg; exact absurd hg.1 (by simp)
      · intro hg; rw [h1] at hg; exact absurd hg.2.2.2 (by simp)
      · intro hg; exact h1 ⟨hg.2.1, hg.2.2.1⟩
    rw [if_neg hng]
  · intro x rest location cp hcp hcnt
    rw [mergeLoc, hcp]
    simp only
    rw [if_pos hcnt]

/-- Witness for C10: the three invariants applied to concrete s3 and dbfs
locations: a crawl of `s3://bucket/a/b.csv` collects `s3://bucket/a/`
(ending in a slash); a dbfs location contributes nothing; and a deeper
`s3://bucket/a/b/c.csv` merges in place into the common `s3://bucket/a/`. -/
theorem external_locations_invariants_witness :
    (ExternalLocation.mk s3DirSlash).location.getLast? = some '/' ∧
      (rowDbfs.location = some dbfsLoc ∧ 0 < dbfsLoc.length ∧
        pyStartsWith (resolveLocation [] dbfsLoc) dbfsLit = true ∧
        tableStep [] [] rowDbfs = some []) ∧
      (commonpath2 s3DirSlash (pyDirname s3TableLocDeep ++ slashLit) =
          some s3CommonRaw ∧
        2 < (pyReplace s3CommonRaw sepLit sepDoubleLit ++ slashLit).count '/' ∧
        mergeLoc [ExternalLocation.mk s3DirSlash] s3TableLocDeep =
          some [ExternalLocation.mk
            (pyReplace s3CommonRaw sepLit sepDoubleLit ++ slashLit)]) := by
  refine ⟨?_, ⟨rfl, by decide, by decide, ?_⟩, ⟨by decide, by decide, ?_⟩⟩
  · refine external_locations_invariants.1 [rowS3] [] [ExternalLocation.mk s3DirSlash]
      ?_ (by decide) (ExternalLocation.mk s3DirSlash) (by decide)
    intro t ht l hl
    rw [List.mem_singleton] at ht
    subst ht
    have hle : some s3TableLoc = some l := hl
    obtain rfl := Option.some.inj hle
    decide
  · exact (external_locations_invariants.2.1 [] [] rowDbfs dbfsLoc rfl (by decide)
      (Or.inl (by decide))).trans (by decide)
  · exact external_locations_invariants.2.2 (ExternalLocation.mk s3DirSlash) []
      s3TableLocDeep s3CommonRaw (by decide) (by decide)

end Ucx
